import Mathlib

/-!
Verification of the CareSignal visit-processing pipeline and its
client-side insight-derivation engine.

The definitions below are a shallow embedding of the TypeScript source:
JavaScript strings are Lean `String`s, `undefined` is `Option.none`,
JSON values produced by `JSON.parse` are the inductive `Json`, and the
LLM gateway is an injected completion oracle.  Fallible code returns
`Except`/`Option`; every function is total by construction, so "never
throws" statements become statements about the returned values.
-/

set_option maxRecDepth 4096

-- ===========================================================================
-- JavaScript string primitives (trim, toLowerCase, whitespace classes)
-- ===========================================================================

/-- JavaScript `\s` / `String.prototype.trim` whitespace (ASCII part:
space, tab, LF, CR, vertical tab, form feed). -/
def jsWs (c : Char) : Bool :=
  c == ' ' || c == '\t' || c == '\n' || c == '\r' ||
  c == Char.ofNat 11 || c == Char.ofNat 12

/-- Model of `String.prototype.trim`. -/
def jsTrim (s : String) : String :=
  String.mk (((s.toList.dropWhile jsWs).reverse.dropWhile jsWs).reverse)

/-- ASCII lower-casing of one character, as `toLowerCase` does on ASCII. -/
def jsLowerChar (c : Char) : Char :=
  if 65 ≤ c.toNat ∧ c.toNat ≤ 90 then Char.ofNat (c.toNat + 32) else c

/-- Model of `String.prototype.toLowerCase` (ASCII range). -/
def jsToLower (s : String) : String :=
  String.mk (s.toList.map jsLowerChar)

-- ===========================================================================
-- JSON values (results of `JSON.parse`)
-- ===========================================================================

/-- A parsed JSON value.  Numbers keep only their integer part; no claim
depends on fractional numeric values, only on the value's type tag. -/
inductive Json where
  | null
  | bool (b : Bool)
  | num (n : Int)
  | str (s : String)
  | arr (elems : List Json)
  | obj (fields : List (String × Json))

/-- JavaScript truthiness of a parsed JSON value (`!parsed`). -/
def jsTruthy : Json → Bool
  | .null => false
  | .bool b => b
  | .num n => n != 0
  | .str s => s != ""
  | .arr _ => true
  | .obj _ => true

/-- `typeof parsed === "object"` — true for objects, arrays and `null`. -/
def jsTypeofObject : Json → Bool
  | .null => true
  | .arr _ => true
  | .obj _ => true
  | _ => false

/-- Property lookup `o[k]` on a parsed value; `none` models `undefined`.
`JSON.parse` keeps the last of duplicate keys, hence the reversed search. -/
def jsGetField (j : Json) (k : String) : Option Json :=
  match j with
  | .obj fields => ((fields.reverse).find? (fun p => p.1 == k)).map (·.2)
  | _ => none

-- ===========================================================================
-- A model of `JSON.parse` (recursive descent, fuel-bounded)
-- ===========================================================================

/-- JSON grammar whitespace. -/
def jsonWsChar (c : Char) : Bool :=
  c == ' ' || c == '\t' || c == '\n' || c == '\r'

/-- Skip leading JSON whitespace. -/
def skipJsonWs : List Char → List Char
  | [] => []
  | c :: cs => if jsonWsChar c then skipJsonWs cs else c :: cs

/-- Hex digit value. -/
def hexVal (c : Char) : Option Nat :=
  if '0' ≤ c ∧ c ≤ '9' then some (c.toNat - 48)
  else if 'a' ≤ c ∧ c ≤ 'f' then some (c.toNat - 87)
  else if 'A' ≤ c ∧ c ≤ 'F' then some (c.toNat - 55)
  else none

/-- Single-character JSON escapes. -/
def jsonEscChar (c : Char) : Option Char :=
  if c = '"' then some '"'
  else if c = '\\' then some '\\'
  else if c = '/' then some '/'
  else if c = 'b' then some (Char.ofNat 8)
  else if c = 'f' then some (Char.ofNat 12)
  else if c = 'n' then some '\n'
  else if c = 'r' then some '\r'
  else if c = 't' then some '\t'
  else none

/-- Parse the body of a JSON string literal (opening quote consumed),
returning the decoded characters and the rest of the input. -/
def parseStrBody (fuel : Nat) (cs : List Char) : Option (List Char × List Char) :=
  match fuel, cs with
  | 0, _ => none
  | _, [] => none
  | fuel + 1, c :: rest =>
    if c = '"' then some ([], rest)
    else if c = '\\' then
      match rest with
      | [] => none
      | e :: rest2 =>
        if e = 'u' then
          match rest2 with
          | h1 :: h2 :: h3 :: h4 :: rest3 =>
            match hexVal h1, hexVal h2, hexVal h3, hexVal h4 with
            | some a, some b, some c2, some d =>
              (parseStrBody fuel rest3).map
                (fun r => (Char.ofNat (((a * 16 + b) * 16 + c2) * 16 + d) :: r.1, r.2))
            | _, _, _, _ => none
          | _ => none
        else
          match jsonEscChar e with
          | some dec => (parseStrBody fuel rest2).map (fun r => (dec :: r.1, r.2))
          | none => none
    else (parseStrBody fuel rest).map (fun r => (c :: r.1, r.2))

/-- Take a run of decimal digits. -/
def takeDigits : List Char → (List Char × List Char)
  | [] => ([], [])
  | c :: cs =>
    if '0' ≤ c ∧ c ≤ '9' then
      let r := takeDigits cs
      (c :: r.1, r.2)
    else ([], c :: cs)

/-- Digits to a natural number. -/
def digitsToNat (ds : List Char) : Nat :=
  ds.foldl (fun acc c => acc * 10 + (c.toNat - 48)) 0

/-- Parse a JSON number; only the integer part is retained as the value.
The fraction and exponent are consumed so that trailing input is judged
correctly. -/
def parseNumber (cs : List Char) : Option (Json × List Char) :=
  let (neg, cs1) :=
    match cs with
    | '-' :: rest => (true, rest)
    | _ => (false, cs)
  let (intDs, cs2) := takeDigits cs1
  if intDs = [] then none
  else
    let (cs3ok, cs3) :=
      match cs2 with
      | '.' :: rest =>
        let (fracDs, r) := takeDigits rest
        if fracDs = [] then (false, cs2) else (true, r)
      | _ => (true, cs2)
    if ¬ cs3ok then none
    else
      let (cs4ok, cs4) :=
        match cs3 with
        | 'e' :: rest | 'E' :: rest =>
          let rest2 :=
            match rest with
            | '+' :: r => r
            | '-' :: r => r
            | _ => rest
          let (expDs, r) := takeDigits rest2
          if expDs = [] then (false, cs3) else (true, r)
        | _ => (true, cs3)
      if ¬ cs4ok then none
      else
        let n : Int := Int.ofNat (digitsToNat intDs)
        some (.num (if neg then -n else n), cs4)

mutual

/-- Parse one JSON value. -/
def parseJsonValue (fuel : Nat) (cs : List Char) : Option (Json × List Char) :=
  match fuel with
  | 0 => none
  | fuel + 1 =>
    match skipJsonWs cs with
    | [] => none
    | 'n' :: 'u' :: 'l' :: 'l' :: rest => some (.null, rest)
    | 't' :: 'r' :: 'u' :: 'e' :: rest => some (.bool true, rest)
    | 'f' :: 'a' :: 'l' :: 's' :: 'e' :: rest => some (.bool false, rest)
    | '"' :: rest =>
      (parseStrBody (rest.length + 1) rest).map (fun r => (.str (String.mk r.1), r.2))
    | '[' :: rest => parseJsonItems fuel rest true
    | '{' :: rest => parseJsonMembers fuel rest true
    | c :: rest => parseNumber (c :: rest)

/-- Parse the items of a JSON array after `[`; `first` is true before the
first item. -/
def parseJsonItems (fuel : Nat) (cs : List Char) (first : Bool) :
    Option (Json × List Char) :=
  match fuel with
  | 0 => none
  | fuel + 1 =>
    match skipJsonWs cs with
    | ']' :: rest => if first then some (.arr [], rest) else none
    | cs1 =>
      match parseJsonValue fuel cs1 with
      | none => none
      | some (v, rest) =>
        match skipJsonWs rest with
        | ',' :: rest2 =>
          match parseJsonItems fuel rest2 false with
          | some (.arr vs, rest3) => some (.arr (v :: vs), rest3)
          | _ => none
        | ']' :: rest2 => some (.arr [v], rest2)
        | _ => none

/-- Parse the members of a JSON object after `{`. -/
def parseJsonMembers (fuel : Nat) (cs : List Char) (first : Bool) :
    Option (Json × List Char) :=
  match fuel with
  | 0 => none
  | fuel + 1 =>
    match skipJsonWs cs with
    | '}' :: rest => if first then some (.obj [], rest) else none
    | '"' :: rest =>
      match parseStrBody (rest.length + 1) rest with
      | none => none
      | some (key, rest1) =>
        match skipJsonWs rest1 with
        | ':' :: rest2 =>
          match parseJsonValue fuel rest2 with
          | none => none
          | some (v, rest3) =>
            match skipJsonWs rest3 with
            | ',' :: rest4 =>
              match parseJsonMembers fuel rest4 false with
              | some (.obj fs, rest5) => some (.obj ((String.mk key, v) :: fs), rest5)
              | _ => none
            | '}' :: rest4 => some (.obj [(String.mk key, v)], rest4)
            | _ => none
        | _ => none
    | _ => none

end

/-- Model of `JSON.parse`: `none` models a thrown `SyntaxError`. -/
def jsonParse (s : String) : Option Json :=
  match parseJsonValue (2 * s.toList.length + 8) s.toList with
  | none => none
  | some (v, rest) => if skipJsonWs rest = [] then some v else none

-- ===========================================================================
-- Pipeline data model (src pipeline module: types)
-- ===========================================================================

namespace Pipeline

/-- Normalized risk severity (`"low" | "medium" | "high"`). -/
inductive Severity where
  | low
  | medium
  | high
deriving DecidableEq

/-- `"stable" | "watch" | "attention_needed"`. -/
inductive CareLevel where
  | stable
  | watch
  | attention_needed
deriving DecidableEq

/-- `StructuredVisitData` of the pipeline module.  Every field is optional
in the TypeScript interface, hence the `Option`s. -/
structure StructuredVisitData where
  visit_summary : Option String
  key_observations : Option (List String)
  activities_completed : Option (List String)
  medication_notes : Option (List String)
  concerns : Option (List String)
  suggested_followups : Option (List String)
  care_level_indicator : Option CareLevel
deriving DecidableEq

/-- A single risk flag produced by the risk-analysis stage. -/
structure RiskFlag where
  risk : String
  severity : Severity
  reason : String
deriving DecidableEq

/-- Risk-analysis output. -/
structure RiskAnalysis where
  risk_flags : List RiskFlag
deriving DecidableEq

/-- Full pipeline result. -/
structure PipelineResult where
  cleanedTranscript : String
  structuredData : StructuredVisitData
  risks : RiskAnalysis
deriving DecidableEq

/-- The pipeline stage names (`"clean" | "structure" | "analyze"`). -/
inductive Step where
  | clean
  | structuring
  | analyze
deriving DecidableEq

/-- `PipelineError` (the `cause` field is dropped: it only wraps the
original exception object for diagnostics). -/
structure PipelineError where
  message : String
  step : Step
deriving DecidableEq

-- ===========================================================================
-- JSON extraction and defensive parsing (pipeline module)
-- ===========================================================================

/-- First index at which the fence `\x60\x60\x60` starts. -/
def fenceIdx : List Char → Option Nat
  | '`' :: '`' :: '`' :: _ => some 0
  | _ :: rest => (fenceIdx rest).map (· + 1)
  | [] => none

/-- Drop leading regex-`\s` whitespace. -/
def dropRegexWs : List Char → List Char
  | [] => []
  | c :: cs => if jsWs c then dropRegexWs cs else c :: cs

/-- The capture of the first match of the fenced-code-block regex
(`(?:json)?` tag, `\s*`, then a lazy capture up to the closing fence),
or `none` when the regex does not match. -/
def codeBlockCapture (cs : List Char) : Option (List Char) :=
  match fenceIdx cs with
  | none => none
  | some i =>
    let afterOpen := cs.drop (i + 3)
    let afterTag :=
      if ['j', 's', 'o', 'n'].isPrefixOf afterOpen then afterOpen.drop 4 else afterOpen
    let body := dropRegexWs afterTag
    match fenceIdx body with
    | none => none
    | some k => some (body.take k)

/-- `extractJson`: try a fenced code block first, else the substring from
the first `\x7b` to the last `\x7d`, else the whole trimmed content. -/
def extractJson (content : String) : String :=
  let trimmed := jsTrim content
  let cs := trimmed.toList
  match codeBlockCapture cs with
  | some inner => jsTrim (String.mk inner)
  | none =>
    match (cs.findIdx? (fun c => c == '{') : Option Nat) with
    | none => trimmed
    | some startIdx =>
      let stopIdx : Nat :=
        (((cs.reverse.findIdx? (fun c => c == '}') : Option Nat)).map
            (fun k => cs.length - 1 - k + 1)).getD 0
      if startIdx < stopIdx then String.mk ((cs.drop startIdx).take (stopIdx - startIdx))
      else trimmed

/-- `createEmptyStructuredData`. -/
def createEmptyStructuredData : StructuredVisitData :=
  { visit_summary := some ""
    key_observations := some []
    activities_completed := some []
    medication_notes := some []
    concerns := some []
    suggested_followups := some []
    care_level_indicator := some .stable }

/-- `typeof x === "string" ? x : ""` for array elements. -/
def strOrEmpty : Json → String
  | .str s => s
  | _ => ""

/-- `toArray`: keep arrays element-for-element, coercing non-strings to
`""`; anything that is not an array becomes `[]`. -/
def toArray : Option Json → List String
  | some (.arr xs) => xs.map strOrEmpty
  | _ => []

/-- `isValidCareLevel` applied to a field value, yielding the retained
care level (default `stable`). -/
def careLevelOf : Option Json → CareLevel
  | some (.str "stable") => .stable
  | some (.str "watch") => .watch
  | some (.str "attention_needed") => .attention_needed
  | _ => .stable

/-- `normalizeSeverity`: lower-case the value when it is a string (else
use `""`) and map the recognized keywords. -/
def normalizeSeverity (v : Option Json) : Severity :=
  let s := jsToLower (match v with | some (.str s) => s | _ => "")
  if s == "medium" || s == "moderate" then .medium
  else if s == "high" || s == "urgent" then .high
  else .low

/-- `normalizeStructuredData` over a parsed JSON value. -/
def normalizeStructuredData (parsed : Json) : StructuredVisitData :=
  { visit_summary :=
      some (match jsGetField parsed "visit_summary" with
            | some (.str s) => s
            | _ => "")
    key_observations := some (toArray (jsGetField parsed "key_observations"))
    activities_completed := some (toArray (jsGetField parsed "activities_completed"))
    medication_notes := some (toArray (jsGetField parsed "medication_notes"))
    concerns := some (toArray (jsGetField parsed "concerns"))
    suggested_followups := some (toArray (jsGetField parsed "suggested_followups"))
    care_level_indicator := some (careLevelOf (jsGetField parsed "care_level_indicator")) }

/-- `isValidRiskFlag`: `v !== null && typeof v === "object"`. -/
def isValidRiskFlag (v : Json) : Bool :=
  match v with
  | .obj _ => true
  | .arr _ => true
  | _ => false

/-- Stage-2 parser.  `JSON.parse` failure is `jsonParse = none`; the
`!parsed || typeof parsed !== "object"` guard is the truthy/typeof test. -/
def parseStructuredData (content : String) : StructuredVisitData :=
  let json := extractJson content
  match jsonParse json with
  | none => createEmptyStructuredData
  | some parsed =>
    if jsTruthy parsed && jsTypeofObject parsed then normalizeStructuredData parsed
    else createEmptyStructuredData

/-- Stage-3 parser. -/
def parseRiskAnalysis (content : String) : RiskAnalysis :=
  let json := extractJson content
  match jsonParse json with
  | none => { risk_flags := [] }
  | some parsed =>
    if jsTruthy parsed && jsTypeofObject parsed then
      let flags :=
        match jsGetField parsed "risk_flags" with
        | some (.arr xs) => xs
        | _ => []
      { risk_flags :=
          (flags.filter isValidRiskFlag).map (fun f =>
            { risk := (match jsGetField f "risk" with | some (.str s) => s | _ => "")
              severity := normalizeSeverity (jsGetField f "severity")
              reason := (match jsGetField f "reason" with | some (.str s) => s | _ => "") }) }
    else { risk_flags := [] }

-- ===========================================================================
-- Pipeline orchestration (LLM gateway as an injected completion oracle)
-- ===========================================================================

/-- The LLM gateway, modelled as a deterministic completion oracle: for a
given user message it yields the completion's message content (`none`
models a null/absent content).  The stage-3 user message serializes the
structured data, so that oracle consumes the record itself. -/
structure Gateway where
  cleanResp : String → Option String
  structureResp : String → Option String
  risksResp : StructuredVisitData → Option String

/-- Stage 1, `cleanTranscript`: trim the completion content and fail on a
missing/empty result. -/
def cleanTranscript (gw : Gateway) (rawText : String) : Except PipelineError String :=
  let content := (gw.cleanResp ("Clean this transcript:\n\n" ++ jsTrim rawText)).map jsTrim
  match content with
  | none => .error { message := "No output from transcript cleaning step", step := .clean }
  | some c =>
    if c = "" then .error { message := "No output from transcript cleaning step", step := .clean }
    else .ok c

/-- Stage 2, `structureVisitData`. -/
def structureVisitData (gw : Gateway) (cleanedTranscript : String) :
    Except PipelineError StructuredVisitData :=
  let content := (gw.structureResp ("Structure these visit notes:\n\n" ++ cleanedTranscript)).map jsTrim
  match content with
  | none => .error { message := "No output from clinical structuring step", step := .structuring }
  | some c =>
    if c = "" then .error { message := "No output from clinical structuring step", step := .structuring }
    else .ok (parseStructuredData c)

/-- Stage 3, `analyzeRisks`. -/
def analyzeRisks (gw : Gateway) (structuredData : StructuredVisitData) :
    Except PipelineError RiskAnalysis :=
  let content := (gw.risksResp structuredData).map jsTrim
  match content with
  | none => .error { message := "No output from risk analysis step", step := .analyze }
  | some c =>
    if c = "" then .error { message := "No output from risk analysis step", step := .analyze }
    else .ok (parseRiskAnalysis c)

/-- `analyzeCaregiverTranscriptInternal`: the three stages strictly in
sequence, each failure re-wrapped with its stage tag (the `.catch`
blocks).  The second component records which gateway-backed stages were
invoked, in order. -/
def analyzeCaregiverTranscriptInternal (gw : Gateway) (text : String) :
    Except PipelineError PipelineResult × List Step :=
  match cleanTranscript gw text with
  | .error e => (.error { message := e.message, step := .clean }, [.clean])
  | .ok cleaned =>
    match structureVisitData gw cleaned with
    | .error e => (.error { message := e.message, step := .structuring }, [.clean, .structuring])
    | .ok sd =>
      match analyzeRisks gw sd with
      | .error e =>
        (.error { message := e.message, step := .analyze }, [.clean, .structuring, .analyze])
      | .ok risks =>
        (.ok { cleanedTranscript := cleaned, structuredData := sd, risks := risks },
         [.clean, .structuring, .analyze])

/-- `analyzeCaregiverTranscript`: the entry point.  The argument is
`Option String` because the source guards with `text?.trim() ?? ""`
(`none` models `null`/`undefined`). -/
def analyzeCaregiverTranscript (gw : Gateway) (text : Option String) :
    Except PipelineError PipelineResult × List Step :=
  let trimmed := (text.map jsTrim).getD ""
  if trimmed = "" then
    (.error { message := "Input text cannot be empty", step := .clean }, [])
  else analyzeCaregiverTranscriptInternal gw trimmed

end Pipeline

-- ===========================================================================
-- Client-side data model (types/patient) and insight derivation engine
-- ===========================================================================

namespace Client

/-- Client-side `RiskFlag`: here `severity` is a free-form string. -/
structure RiskFlag where
  risk : String
  severity : String
  reason : String
deriving DecidableEq

/-- Client-side `StructuredVisitData` (all fields optional, care level a
free string). -/
structure StructuredVisitData where
  visit_summary : Option String
  key_observations : Option (List String)
  activities_completed : Option (List String)
  medication_notes : Option (List String)
  concerns : Option (List String)
  suggested_followups : Option (List String)
  care_level_indicator : Option String
deriving DecidableEq

/-- The inline `{ risk_flags: RiskFlag[] }` record. -/
structure Risks where
  risk_flags : List RiskFlag
deriving DecidableEq

/-- Client-side `AnalysisResult` (timestamp in epoch milliseconds). -/
structure AnalysisResult where
  cleanedTranscript : String
  structuredData : StructuredVisitData
  risks : Risks
  timestamp : Nat
deriving DecidableEq

/-- `Patient`. -/
structure Patient where
  id : String
  name : String
  age : Nat
  analyses : List AnalysisResult
deriving DecidableEq

/-- Output record of `computeTrendAnalysis`. -/
structure TrendAnalysis where
  new_findings : List String
  worsening_signals : List String
  improvements : List String
deriving DecidableEq

/-- Strip one or more trailing periods (`replace(/\.+$/, "")`). -/
def stripTrailingPeriods (s : String) : String :=
  String.mk ((s.toList.reverse.dropWhile (fun c => c == '.')).reverse)

/-- `normalizeForCompare`: lower-case, trim, strip trailing periods. -/
def normalizeForCompare (s : String) : String :=
  stripTrailingPeriods (jsTrim (jsToLower s))

/-- Lookup in the `prevRiskSeverity` record: it is filled by a `forEach`
whose later assignments overwrite earlier ones, so the last matching
flag wins; values are stored lower-cased.  `none` models `undefined`. -/
def prevRiskSeverityLookup (prevRisks : List RiskFlag) (name : String) : Option String :=
  (((prevRisks.map (fun r => (jsToLower r.risk, jsToLower r.severity))).reverse).find?
      (fun p => p.1 == name)).map (·.2)

/-- `computeTrendAnalysis`. -/
def computeTrendAnalysis (latest : AnalysisResult) (previous : Option AnalysisResult) :
    TrendAnalysis :=
  match previous with
  | none => { new_findings := [], worsening_signals := [], improvements := [] }
  | some prev =>
    let latestConcerns := (latest.structuredData.concerns.getD []).map normalizeForCompare
    let prevConcerns := (prev.structuredData.concerns.getD []).map normalizeForCompare
    let latestObs := (latest.structuredData.key_observations.getD []).map normalizeForCompare
    let prevObs := (prev.structuredData.key_observations.getD []).map normalizeForCompare
    let latestRisks := latest.risks.risk_flags
    let prevRisks := prev.risks.risk_flags
    let prevSet := prevConcerns ++ prevObs
    let new_findings :=
      latestConcerns.filter (fun c => ¬ prevSet.contains c) ++
      latestObs.filter (fun o => ¬ prevSet.contains o)
    let worsening_signals :=
      latestRisks.filterMap (fun r =>
        let name := jsToLower r.risk
        let sev := jsToLower r.severity
        match prevRiskSeverityLookup prevRisks name with
        | none => some (r.risk ++ " newly identified")
        | some prevSev =>
          -- `!prevSev` is also true for the empty string
          if prevSev = "" then some (r.risk ++ " newly identified")
          else if (sev == "high" && prevSev != "high") ||
                  (sev == "medium" && prevSev == "low") then
            some (r.risk ++ " severity increased")
          else none)
    let latestSet := latestConcerns ++ latestObs
    let improvements :=
      prevConcerns.filter (fun c => ¬ latestSet.contains c) ++
      prevObs.filter (fun o => ¬ latestSet.contains o)
    { new_findings := new_findings
      worsening_signals := worsening_signals
      improvements := improvements }

/-- Truthiness of `structuredData?.visit_summary` (non-empty string). -/
def truthyStr : Option String → Bool
  | some s => s != ""
  | none => false

/-- `(field?.length ?? 0)`. -/
def optLen (o : Option (List String)) : Nat :=
  (o.getD []).length

/-- The `populatedFields` count in `computeAIConfidence`. -/
def populatedFields (d : StructuredVisitData) : Nat :=
  (if truthyStr d.visit_summary then 1 else 0) +
  (if 0 < optLen d.key_observations then 1 else 0) +
  (if 0 < optLen d.activities_completed then 1 else 0) +
  (if 0 < optLen d.concerns then 1 else 0) +
  (if 0 < optLen d.suggested_followups then 1 else 0) +
  (if 0 < optLen d.medication_notes then 1 else 0)

/-- Confidence level. -/
inductive ConfLevel where
  | Low
  | Medium
  | High
deriving DecidableEq

/-- Output record of `computeAIConfidence`. -/
structure AIConfidence where
  level : ConfLevel
  reasoning : String
deriving DecidableEq

/-- The sequential score updates of `computeAIConfidence`. -/
def confidenceScore (analysis : AnalysisResult) : Int :=
  let transcriptLen := analysis.cleanedTranscript.length
  let riskCount := analysis.risks.risk_flags.length
  let pf := populatedFields analysis.structuredData
  let score : Int := 0
  let score := if 150 < transcriptLen then score + 1 else score
  let score := if 4 < pf then score + 1 else score
  let score := if 2 ≤ riskCount then score + 1 else score
  let score := if transcriptLen < 50 then score - 1 else score
  if optLen analysis.structuredData.concerns = 0 ∧
     optLen analysis.structuredData.key_observations = 0 then score - 1
  else score

/-- `computeAIConfidence`. -/
def computeAIConfidence (analysis : AnalysisResult) : AIConfidence :=
  let transcriptLen := analysis.cleanedTranscript.length
  let riskCount := analysis.risks.risk_flags.length
  let pf := populatedFields analysis.structuredData
  let score : Int := confidenceScore analysis
  let level : ConfLevel :=
    if score ≤ 1 then .Low else if score = 2 then .Medium else .High
  let reasoning :=
    if level = .High then
      if 2 ≤ riskCount ∧ 4 < pf then
        "Based on multiple corroborating symptoms and consistent transcript detail."
      else "Based on sufficient transcript detail and structured clinical data."
    else if level = .Medium then
      if transcriptLen < 100 then "Limited transcript detail reduces certainty."
      else "Moderate data completeness; some nuance may be missed."
    else
      if transcriptLen < 50 then "Very short transcript limits reliability."
      else "Limited structured data extracted; consider adding more detail."
  { level := level, reasoning := reasoning }

/-- The comparator key of `sortRisksBySeverity`:
high 0, medium/moderate 1, anything else 2. -/
def severityOrder (s : String) : Nat :=
  let x := jsToLower s
  if x == "high" then 0
  else if x == "medium" || x == "moderate" then 1
  else 2

/-- One step of a stable sort: insert `x` (which preceded the already
sorted suffix in the input) before the first element with a key that is
not smaller. -/
def sortInsert (x : RiskFlag) : List RiskFlag → List RiskFlag
  | [] => [x]
  | y :: ys =>
    if severityOrder y.severity < severityOrder x.severity then y :: sortInsert x ys
    else x :: y :: ys

/-- `sortRisksBySeverity`: `[...risks].sort((a, b) => order(a) - order(b))`
— JavaScript's sort is stable, modelled by a stable insertion sort. -/
def sortRisksBySeverity (risks : List RiskFlag) : List RiskFlag :=
  List.foldr sortInsert [] risks

-- ===========================================================================
-- Session store (patient store)
-- ===========================================================================

/-- The store's state: patient list and active selection. -/
structure StoreState where
  patients : List Patient
  activePatientId : Option String
deriving DecidableEq

/-- `Omit<AnalysisResult, "timestamp">`. -/
structure AnalysisInput where
  cleanedTranscript : String
  structuredData : StructuredVisitData
  risks : Risks
deriving DecidableEq

/-- `{ ...result, timestamp: Date.now() }`. -/
def withTimestamp (result : AnalysisInput) (now : Nat) : AnalysisResult :=
  { cleanedTranscript := result.cleanedTranscript
    structuredData := result.structuredData
    risks := result.risks
    timestamp := now }

/-- `addAnalysisToActivePatient` (`now` stands for `Date.now()`).  The
guard `if (!activePatientId) return` is a JavaScript falsiness test: it
returns early both for `null` (`none`) and for the empty string. -/
def addAnalysisToActivePatient (s : StoreState) (result : AnalysisInput) (now : Nat) :
    StoreState :=
  match s.activePatientId with
  | none => s
  | some aid =>
    if aid = "" then s
    else
      { s with
        patients :=
          s.patients.map (fun p =>
            if p.id = aid then { p with analyses := withTimestamp result now :: p.analyses }
            else p) }

end Client

-- ===========================================================================
-- Supporting definitions for the statements (spec-side and fixtures)
-- ===========================================================================

/-- A gateway that always returns no content; used to instantiate
universally quantified gateway arguments in witnesses. -/
def gwNone : Pipeline.Gateway :=
  { cleanResp := fun _ => none
    structureResp := fun _ => none
    risksResp := fun _ => none }

/-- A JavaScript object in the `typeof` sense, excluding `null`:
plain objects and arrays. -/
def jsObjectLike : Json → Bool
  | .obj _ => true
  | .arr _ => true
  | _ => false

/-- `typeof x === "string"`. -/
def jsIsString : Json → Bool
  | .str _ => true
  | _ => false

/-- Stated from the spec, for comparison with the code: a raw JSON field
value and the list stored for it are related by "always a list, length
preserved for arrays, string elements kept in place, non-string elements
coerced to the empty string in place, non-arrays becoming `[]`". -/
def coercesListField (raw : Option Json) (val : Option (List String)) : Prop :=
  ∃ l, val = some l ∧
    (∀ xs, raw = some (Json.arr xs) →
      l.length = xs.length ∧
      (∀ i s, xs.get? i = some (Json.str s) → l.get? i = some s) ∧
      (∀ i x, xs.get? i = some x → jsIsString x = false → l.get? i = some "")) ∧
    ((∀ xs, raw ≠ some (Json.arr xs)) → l = [])

/-- Stated from the spec's scoring rule: the confidence score as one
arithmetic expression — `+1` for transcript length over 150, `+1` for
more than four populated fields, `+1` for at least two risk flags, `−1`
for transcript length under 50, `−1` when concerns and key observations
are both empty. -/
def confidenceScoreSpec (a : Client.AnalysisResult) : Int :=
  (if 150 < a.cleanedTranscript.length then (1 : Int) else 0) +
    (if 4 < Client.populatedFields a.structuredData then (1 : Int) else 0) +
    (if 2 ≤ a.risks.risk_flags.length then (1 : Int) else 0) -
    (if a.cleanedTranscript.length < 50 then (1 : Int) else 0) -
    (if Client.optLen a.structuredData.concerns = 0 ∧
        Client.optLen a.structuredData.key_observations = 0 then (1 : Int) else 0)

/-- Stated from the (amended) spec: what one latest risk flag contributes
to the worsening signals, given the previous flags.  The flag matched in
`previous` is the last one (by lower-cased name); no match — or a match
whose severity is the empty string — yields "newly identified";
otherwise "severity increased" exactly for the transitions to high from
non-high and to medium from low. -/
def worseningSignalSpec (prevRisks : List Client.RiskFlag) (r : Client.RiskFlag) :
    Option String :=
  match prevRisks.reverse.find? (fun q => jsToLower q.risk == jsToLower r.risk) with
  | none => some (r.risk ++ " newly identified")
  | some q =>
    if jsToLower q.severity = "" then some (r.risk ++ " newly identified")
    else if (jsToLower r.severity = "high" ∧ jsToLower q.severity ≠ "high") ∨
            (jsToLower r.severity = "medium" ∧ jsToLower q.severity = "low") then
      some (r.risk ++ " severity increased")
    else none

/-- Client structured data with every optional field absent. -/
def sdAbsent : Client.StructuredVisitData :=
  { visit_summary := none
    key_observations := none
    activities_completed := none
    medication_notes := none
    concerns := none
    suggested_followups := none
    care_level_indicator := none }

/-- An analysis with the given risk flags and no other content. -/
def analysisWithRisks (flags : List Client.RiskFlag) : Client.AnalysisResult :=
  { cleanedTranscript := "t"
    structuredData := sdAbsent
    risks := { risk_flags := flags }
    timestamp := 0 }

/-- C4 counterexample fixture: the latest visit has flag `a` at severity
`low`. -/
def cexLatest : Client.AnalysisResult :=
  analysisWithRisks [{ risk := "a", severity := "low", reason := "r" }]

/-- C4 counterexample fixture: the previous visit has the same flag name
`a` with an empty severity string. -/
def cexPrev : Client.AnalysisResult :=
  analysisWithRisks [{ risk := "a", severity := "", reason := "r" }]

/-- Spec scenario fixture: visit 1 with Fall risk at low severity. -/
def fallV1 : Client.AnalysisResult :=
  analysisWithRisks [{ risk := "Fall risk", severity := "low", reason := "unsteady" }]

/-- Spec scenario fixture: visit 2 with Fall risk at high severity. -/
def fallV2 : Client.AnalysisResult :=
  analysisWithRisks [{ risk := "Fall risk", severity := "high", reason := "fell" }]

/-- C8 fixture: a structuring response whose `key_observations` array
holds a string and a number. -/
def mixedObservations : Json :=
  Json.obj [("key_observations", Json.arr [Json.str "a", Json.num 1])]

/-- C9 fixture: a store with two patients, the first one active. -/
def storeTwo : Client.StoreState :=
  { patients :=
      [ { id := "p1", name := "Alice", age := 70, analyses := [] },
        { id := "p2", name := "Bob", age := 80, analyses := [] } ]
    activePatientId := some "p1" }

/-- C9 fixture: a pipeline result awaiting its timestamp. -/
def inputC9 : Client.AnalysisInput :=
  { cleanedTranscript := "t"
    structuredData := sdAbsent
    risks := { risk_flags := [] } }

/-- C9 counterexample fixture: the active id is the empty string and a
patient carries that id (reachable — `loadFromStorage` rehydrates
patients unvalidated and falls back to the first patient's id). -/
def storeEmptyId : Client.StoreState :=
  { patients := [{ id := "", name := "Eve", age := 60, analyses := [] }]
    activePatientId := some "" }

-- ===========================================================================
-- Theorems
-- ===========================================================================

/-- C2: an input that trims to the empty string makes
`analyzeCaregiverTranscript` fail immediately with the empty-input
`PipelineError` tagged with the `clean` stage, and no gateway-backed
stage is ever invoked (the call trace is empty). -/
theorem analyze_empty_input_fails_without_calls
    (gw : Pipeline.Gateway) (text : String) (h : jsTrim text = "") :
    Pipeline.analyzeCaregiverTranscript gw (some text) =
      (.error { message := "Input text cannot be empty", step := .clean }, []) := by
  simp [Pipeline.analyzeCaregiverTranscript, h]

/-- Witness for C2 at the whitespace-only transcript. -/
theorem analyze_empty_input_fails_without_calls_witness :
    jsTrim "   " = "" ∧
    Pipeline.analyzeCaregiverTranscript gwNone (some "   ") =
      (.error { message := "Input text cannot be empty", step := .clean }, []) :=
  ⟨rfl, analyze_empty_input_fails_without_calls gwNone "   " rfl⟩

/-- C10: called with `null`/`undefined` in place of the transcript string
(modelled by `none`), `analyzeCaregiverTranscript` does not crash: the
optional-chained trim treats the input as empty, the same empty-input
`PipelineError` results, and the gateway is never invoked. -/
theorem analyze_null_input_total (gw : Pipeline.Gateway) :
    Pipeline.analyzeCaregiverTranscript gw none =
      (.error { message := "Input text cannot be empty", step := .clean }, []) := rfl

/-- C3: `normalizeSeverity` is total and stable — every result is one of
low/medium/high; `"Moderate"` maps to medium, `"URGENT"` to high,
`undefined` to low; and any input whose lower-cased string form is none
of the four recognized keywords maps to low. -/
theorem normalizeSeverity_total_and_stable :
    (∀ x : Option Json,
      Pipeline.normalizeSeverity x = .low ∨ Pipeline.normalizeSeverity x = .medium ∨
        Pipeline.normalizeSeverity x = .high) ∧
    Pipeline.normalizeSeverity (some (Json.str "Moderate")) = .medium ∧
    Pipeline.normalizeSeverity (some (Json.str "URGENT")) = .high ∧
    Pipeline.normalizeSeverity none = .low ∧
    (∀ x : Option Json,
      (∀ s, x = some (Json.str s) →
        jsToLower s ≠ "medium" ∧ jsToLower s ≠ "moderate" ∧
        jsToLower s ≠ "high" ∧ jsToLower s ≠ "urgent") →
      Pipeline.normalizeSeverity x = .low) := by
  refine ⟨fun x => ?_, rfl, rfl, rfl, fun x h => ?_⟩
  · cases hx : Pipeline.normalizeSeverity x
    · exact Or.inl rfl
    · exact Or.inr (Or.inl rfl)
    · exact Or.inr (Or.inr rfl)
  · match x with
    | none => rfl
    | some .null => rfl
    | some (.bool b) => rfl
    | some (.num n) => rfl
    | some (.arr xs) => rfl
    | some (.obj fs) => rfl
    | some (.str s) =>
      have hs := h s rfl
      simp [Pipeline.normalizeSeverity, hs.1, hs.2.1, hs.2.2.1, hs.2.2.2]

/-- Witness for C3's unrecognized-input clause at a concrete string. -/
theorem normalizeSeverity_total_and_stable_witness :
    Pipeline.normalizeSeverity (some (Json.str "banana")) = .low :=
  normalizeSeverity_total_and_stable.2.2.2.2 (some (Json.str "banana"))
    (by
      intro s hs
      have h1 : Json.str "banana" = Json.str s := Option.some.inj hs
      have h2 : "banana" = s := by injection h1
      cases h2
      exact ⟨by decide, by decide, by decide, by decide⟩)

/-- C6: trend symmetry — for any two analyses `A` and `B`, the
improvements of `computeTrendAnalysis A B` are exactly the new findings
of `computeTrendAnalysis B A` (both are B's normalized concerns then
observations absent from A's normalized union, in input order); the
risk-derived worsening signals play no part in either list. -/
theorem computeTrendAnalysis_symmetric (A B : Client.AnalysisResult) :
    (Client.computeTrendAnalysis A (some B)).improvements =
      (Client.computeTrendAnalysis B (some A)).new_findings := rfl

/-- C1: the stage-2 and stage-3 parsers are total functions (they never
throw), and whenever JSON extraction/parsing fails (`jsonParse = none`)
or the parsed value is not an object, `parseStructuredData` returns the
all-empty structured record with a `stable` care level and
`parseRiskAnalysis` returns the empty risk list. -/
theorem parsers_default_on_malformed_output (content : String)
    (h : jsonParse (Pipeline.extractJson content) = none ∨
      ∀ p, jsonParse (Pipeline.extractJson content) = some p → jsObjectLike p = false) :
    Pipeline.parseStructuredData content =
      { visit_summary := some ""
        key_observations := some []
        activities_completed := some []
        medication_notes := some []
        concerns := some []
        suggested_followups := some []
        care_level_indicator := some .stable } ∧
    Pipeline.parseRiskAnalysis content = { risk_flags := [] } := by
  have hcase : jsonParse (Pipeline.extractJson content) = none ∨
      ∃ p, jsonParse (Pipeline.extractJson content) = some p ∧
        (jsTruthy p && jsTypeofObject p) = false := by
    rcases h with h | h
    · exact Or.inl h
    · cases hp : jsonParse (Pipeline.extractJson content) with
      | none => exact Or.inl rfl
      | some p =>
        refine Or.inr ⟨p, rfl, ?_⟩
        have hobj := h p hp
        cases p <;> simp_all [jsObjectLike, jsTruthy, jsTypeofObject]
  simp only [Pipeline.parseStructuredData, Pipeline.parseRiskAnalysis]
  rcases hcase with hnone | ⟨p, hp, hguard⟩
  · rw [hnone]
    exact ⟨rfl, rfl⟩
  · rw [hp]
    refine ⟨?_, ?_⟩ <;> simp [hguard, Pipeline.createEmptyStructuredData]

/-- Witness for C1: a plain-prose response with no JSON braces fails to
parse and both parsers degrade to their defaults. -/
theorem parsers_default_on_malformed_output_witness :
    (jsonParse (Pipeline.extractJson "Patient seems stable today, no concerns.") = none) ∧
    Pipeline.parseStructuredData "Patient seems stable today, no concerns." =
      { visit_summary := some ""
        key_observations := some []
        activities_completed := some []
        medication_notes := some []
        concerns := some []
        suggested_followups := some []
        care_level_indicator := some .stable } ∧
    Pipeline.parseRiskAnalysis "Patient seems stable today, no concerns." =
      { risk_flags := [] } :=
  ⟨rfl,
    parsers_default_on_malformed_output "Patient seems stable today, no concerns."
      (Or.inl rfl)⟩

/-- C5: `computeAIConfidence` scores exactly the five stated adjustments
(as one arithmetic sum) and maps the score to Low at ≤ 1, Medium at 2,
High at ≥ 3. -/
theorem computeAIConfidence_score_and_level (a : Client.AnalysisResult) :
    (Client.computeAIConfidence a).level =
      (if confidenceScoreSpec a ≤ 1 then Client.ConfLevel.Low
       else if confidenceScoreSpec a = 2 then Client.ConfLevel.Medium
       else Client.ConfLevel.High) := by
  have hscore : Client.confidenceScore a = confidenceScoreSpec a := by
    simp only [Client.confidenceScore, confidenceScoreSpec]
    split_ifs <;> norm_num
  simp only [Client.computeAIConfidence, hscore]

/-- The comparator key only takes the values 0, 1, 2. -/
theorem severityOrder_cases (s : String) :
    Client.severityOrder s = 0 ∨ Client.severityOrder s = 1 ∨ Client.severityOrder s = 2 := by
  simp only [Client.severityOrder]
  split_ifs <;> simp

/-- Inserting an element after all strictly smaller keys and before the
first non-smaller key. -/
theorem sortInsert_append_of (x : Client.RiskFlag) (a b : List Client.RiskFlag)
    (ha : ∀ y ∈ a, Client.severityOrder y.severity < Client.severityOrder x.severity)
    (hb : ∀ y ∈ b, ¬ Client.severityOrder y.severity < Client.severityOrder x.severity) :
    Client.sortInsert x (a ++ b) = a ++ x :: b := by
  induction a with
  | nil =>
    cases b with
    | nil => rfl
    | cons y ys =>
      simp only [List.nil_append, Client.sortInsert]
      rw [if_neg (hb y (List.mem_cons_self y ys))]
  | cons y ys ih =>
    simp only [List.cons_append, Client.sortInsert, List.append_eq]
    rw [if_pos (ha y (List.mem_cons_self y ys)),
      ih (fun z hz => ha z (List.mem_cons_of_mem y hz))]

/-- The stable sort equals the concatenation of the three key classes,
each kept in input order. -/
theorem sortRisksBySeverity_eq_filters (risks : List Client.RiskFlag) :
    Client.sortRisksBySeverity risks =
      risks.filter (fun r => Client.severityOrder r.severity == 0) ++
        risks.filter (fun r => Client.severityOrder r.severity == 1) ++
        risks.filter (fun r => Client.severityOrder r.severity == 2) := by
  induction risks with
  | nil => rfl
  | cons x xs ih =>
    have hstep : Client.sortRisksBySeverity (x :: xs) =
        Client.sortInsert x (Client.sortRisksBySeverity xs) := rfl
    have hmem : ∀ k, ∀ y ∈ xs.filter (fun r => Client.severityOrder r.severity == k),
        Client.severityOrder y.severity = k := by
      intro k y hy
      have := (List.mem_filter.mp hy).2
      simpa using this
    rcases severityOrder_cases x.severity with h | h | h
    · rw [hstep, ih]
      have hins := sortInsert_append_of x []
        (xs.filter (fun r => Client.severityOrder r.severity == 0) ++
          xs.filter (fun r => Client.severityOrder r.severity == 1) ++
          xs.filter (fun r => Client.severityOrder r.severity == 2))
        (by simp)
        (by intro y _; rw [h]; exact Nat.not_lt_zero _)
      simp only [List.nil_append] at hins
      rw [hins]
      simp [List.filter_cons, h]
    · rw [hstep, ih, List.append_assoc]
      have hins := sortInsert_append_of x
        (xs.filter (fun r => Client.severityOrder r.severity == 0))
        (xs.filter (fun r => Client.severityOrder r.severity == 1) ++
          xs.filter (fun r => Client.severityOrder r.severity == 2))
        (by intro y hy; rw [hmem 0 y hy, h]; exact Nat.zero_lt_one)
        (by
          intro y hy
          rcases List.mem_append.mp hy with hy1 | hy2
          · rw [hmem 1 y hy1, h]; omega
          · rw [hmem 2 y hy2, h]; omega)
      rw [hins]
      simp [List.filter_cons, h, List.append_assoc]
    · rw [hstep, ih]
      have hins := sortInsert_append_of x
        (xs.filter (fun r => Client.severityOrder r.severity == 0) ++
          xs.filter (fun r => Client.severityOrder r.severity == 1))
        (xs.filter (fun r => Client.severityOrder r.severity == 2))
        (by
          intro y hy
          rcases List.mem_append.mp hy with hy0 | hy1
          · rw [hmem 0 y hy0, h]; omega
          · rw [hmem 1 y hy1, h]; omega)
        (by intro y hy; rw [hmem 2 y hy, h]; omega)
      rw [hins]
      simp [List.filter_cons, h]

/-- The three key classes partition the input up to permutation. -/
theorem filters_partition_perm (risks : List Client.RiskFlag) :
    List.Perm risks
      (risks.filter (fun r => Client.severityOrder r.severity == 0) ++
        risks.filter (fun r => Client.severityOrder r.severity == 1) ++
        risks.filter (fun r => Client.severityOrder r.severity == 2)) := by
  rw [List.perm_iff_count]
  intro a
  simp only [List.count_append]
  have hz : ∀ k, Client.severityOrder a.severity ≠ k →
      (risks.filter (fun r => Client.severityOrder r.severity == k)).count a = 0 := by
    intro k hk
    refine List.count_eq_zero.mpr ?_
    intro hmem
    have := (List.mem_filter.mp hmem).2
    exact hk (by simpa using this)
  rcases severityOrder_cases a.severity with h | h | h
  · rw [List.count_filter (by simp [h]), hz 1 (by omega), hz 2 (by omega)]
    omega
  · rw [hz 0 (by omega), hz 2 (by omega), List.count_filter (by simp [h])]
    omega
  · rw [hz 0 (by omega), hz 1 (by omega), List.count_filter (by simp [h])]
    omega

/-- C7: `sortRisksBySeverity` returns a new sequence that is a
permutation of its input in which the three severity ranks appear as
blocks — all high (rank 0) flags first, then all medium/moderate
(rank 1), then the rest (rank 2) — each block keeping the input order
(that is the filter characterization, which is exactly stability), and
the output is sorted by rank throughout. -/
theorem sortRisksBySeverity_stable_and_ordered (risks : List Client.RiskFlag) :
    Client.sortRisksBySeverity risks =
        risks.filter (fun r => Client.severityOrder r.severity == 0) ++
          risks.filter (fun r => Client.severityOrder r.severity == 1) ++
          risks.filter (fun r => Client.severityOrder r.severity == 2) ∧
      List.Perm (Client.sortRisksBySeverity risks) risks ∧
      List.Pairwise
        (fun x y => Client.severityOrder x.severity ≤ Client.severityOrder y.severity)
        (Client.sortRisksBySeverity risks) := by
  have hmem : ∀ k : Nat, ∀ y ∈ risks.filter (fun r => Client.severityOrder r.severity == k),
      Client.severityOrder y.severity = k := by
    intro k y hy
    have := (List.mem_filter.mp hy).2
    simpa using this
  refine ⟨sortRisksBySeverity_eq_filters risks, ?_, ?_⟩
  · rw [sortRisksBySeverity_eq_filters risks]
    exact (filters_partition_perm risks).symm
  · rw [sortRisksBySeverity_eq_filters risks]
    refine List.pairwise_append.mpr ⟨List.pairwise_append.mpr ⟨?_, ?_, ?_⟩, ?_, ?_⟩
    · exact List.pairwise_of_forall_mem_list fun a ha b hb => by
        rw [hmem 0 a ha, hmem 0 b hb]
    · exact List.pairwise_of_forall_mem_list fun a ha b hb => by
        rw [hmem 1 a ha, hmem 1 b hb]
    · intro a ha b hb
      rw [hmem 0 a ha, hmem 1 b hb]
      omega
    · exact List.pairwise_of_forall_mem_list fun a ha b hb => by
        rw [hmem 2 a ha, hmem 2 b hb]
    · intro a ha b hb
      rcases List.mem_append.mp ha with h0 | h1
      · rw [hmem 0 a h0, hmem 2 b hb]; omega
      · rw [hmem 1 a h1, hmem 2 b hb]; omega

/-- `filterMap` respects pointwise equal functions. -/
theorem filterMap_ext {α β : Type} (f g : α → Option β) (l : List α)
    (h : ∀ a, f a = g a) : l.filterMap f = l.filterMap g := by
  have hfg : f = g := funext h
  rw [hfg]

/-- The severity record lookup is the last matching previous flag,
lower-cased. -/
theorem prevRiskSeverityLookup_eq (prevRisks : List Client.RiskFlag) (name : String) :
    Client.prevRiskSeverityLookup prevRisks name =
      (prevRisks.reverse.find? (fun q => jsToLower q.risk == name)).map
        (fun q => jsToLower q.severity) := by
  unfold Client.prevRiskSeverityLookup
  rw [← List.map_reverse, List.find?_map, Option.map_map]
  rfl

/-- What the code contributes per latest flag coincides with the
spec-side per-flag rule. -/
theorem worseningSignalSpec_eq_code (prevRisks : List Client.RiskFlag)
    (r : Client.RiskFlag) :
    (match Client.prevRiskSeverityLookup prevRisks (jsToLower r.risk) with
      | none => some (r.risk ++ " newly identified")
      | some prevSev =>
        if prevSev = "" then some (r.risk ++ " newly identified")
        else if (jsToLower r.severity == "high" && prevSev != "high") ||
                (jsToLower r.severity == "medium" && prevSev == "low") then
          some (r.risk ++ " severity increased")
        else none) = worseningSignalSpec prevRisks r := by
  rw [prevRiskSeverityLookup_eq]
  cases hfind : prevRisks.reverse.find? (fun q => jsToLower q.risk == jsToLower r.risk) with
  | none => simp [worseningSignalSpec, hfind]
  | some q =>
    simp only [worseningSignalSpec, hfind, Option.map_some']
    by_cases hempty : jsToLower q.severity = ""
    · simp [hempty]
    · rw [if_neg hempty, if_neg hempty]
      by_cases hcond : (jsToLower r.severity = "high" ∧ jsToLower q.severity ≠ "high") ∨
          (jsToLower r.severity = "medium" ∧ jsToLower q.severity = "low")
      · rw [if_pos ?_, if_pos hcond]
        simp only [Bool.or_eq_true, Bool.and_eq_true, beq_iff_eq, bne_iff_ne]
        exact hcond
      · rw [if_neg ?_, if_neg hcond]
        simp only [Bool.or_eq_true, Bool.and_eq_true, beq_iff_eq, bne_iff_ne]
        exact hcond

/-- The worsening signals are the per-flag spec rule mapped over the
latest flags. -/
theorem worsening_signals_eq_spec (latest previous : Client.AnalysisResult) :
    (Client.computeTrendAnalysis latest (some previous)).worsening_signals =
      latest.risks.risk_flags.filterMap
        (worseningSignalSpec previous.risks.risk_flags) := by
  simp only [Client.computeTrendAnalysis]
  exact filterMap_ext _ _ _
    (fun r => worseningSignalSpec_eq_code previous.risks.risk_flags r)

/-- C4 (amended): a latest risk flag yields "newly identified" when its
lower-cased name has no match among the previous flags or when the
matched (last, by lower-cased name) previous severity is the empty
string; otherwise it yields "severity increased" exactly for a
transition to high from non-high or to medium from low; in particular
the low-to-high Fall-risk scenario yields exactly
`["Fall risk severity increased"]`. -/
theorem computeTrendAnalysis_worsening_amended :
    (∀ latest previous : Client.AnalysisResult,
        (Client.computeTrendAnalysis latest (some previous)).worsening_signals =
          latest.risks.risk_flags.filterMap
            (worseningSignalSpec previous.risks.risk_flags)) ∧
      (Client.computeTrendAnalysis fallV2 (some fallV1)).worsening_signals =
        ["Fall risk severity increased"] :=
  ⟨worsening_signals_eq_spec, by decide⟩

/-- C4 counterexample: the previous visit carries a flag with the same
lower-cased name but an empty severity string; the claim then demands no
"newly identified" signal (the name matches) and no "severity increased"
signal (low from "" is not one of the two escalations), yet the code
emits "a newly identified". -/
theorem computeTrendAnalysis_worsening_cex :
    (∃ q ∈ cexPrev.risks.risk_flags, jsToLower q.risk = jsToLower "a") ∧
      cexLatest.risks.risk_flags = [{ risk := "a", severity := "low", reason := "r" }] ∧
      (Client.computeTrendAnalysis cexLatest (some cexPrev)).worsening_signals =
        ["a newly identified"] ∧
      (["a newly identified"] : List String) ≠ [] ∧
      (["a newly identified"] : List String) ≠ ["a severity increased"] := by
  refine ⟨⟨{ risk := "a", severity := "", reason := "r" }, by decide, rfl⟩, rfl, ?_, by decide, by decide⟩
  decide

/-- `toArray` realizes the coercion contract for one field. -/
theorem toArray_coerces (raw : Option Json) :
    coercesListField raw (some (Pipeline.toArray raw)) := by
  refine ⟨Pipeline.toArray raw, rfl, ?_, ?_⟩
  · intro xs hraw
    subst hraw
    refine ⟨by simp [Pipeline.toArray], ?_, ?_⟩
    · intro i s hi
      simp only [Pipeline.toArray, List.get?_map, hi, Option.map_some']
      rfl
    · intro i x hi hx
      simp only [Pipeline.toArray, List.get?_map, hi, Option.map_some']
      cases x <;> simp_all [jsIsString, Pipeline.strOrEmpty]
  · intro hnotarr
    match hraw : raw with
    | none => rfl
    | some .null => rfl
    | some (.bool b) => rfl
    | some (.num n) => rfl
    | some (.str s) => rfl
    | some (.obj fs) => rfl
    | some (.arr xs) => exact absurd rfl (hnotarr xs)

/-- C8 (amended): every field of a stage-2-normalized record is present
(`some`), and each list field obeys the coercion contract — it is always
a list of strings; for a raw array the length is preserved, string
elements are kept at their positions, and non-string elements become the
empty string at their positions; for a raw non-array it is `[]`. -/
theorem normalizeStructuredData_fields (parsed : Json) :
    (Pipeline.normalizeStructuredData parsed).visit_summary.isSome ∧
      (Pipeline.normalizeStructuredData parsed).care_level_indicator.isSome ∧
      coercesListField (jsGetField parsed "key_observations")
        (Pipeline.normalizeStructuredData parsed).key_observations ∧
      coercesListField (jsGetField parsed "activities_completed")
        (Pipeline.normalizeStructuredData parsed).activities_completed ∧
      coercesListField (jsGetField parsed "medication_notes")
        (Pipeline.normalizeStructuredData parsed).medication_notes ∧
      coercesListField (jsGetField parsed "concerns")
        (Pipeline.normalizeStructuredData parsed).concerns ∧
      coercesListField (jsGetField parsed "suggested_followups")
        (Pipeline.normalizeStructuredData parsed).suggested_followups :=
  ⟨rfl, rfl, toArray_coerces _, toArray_coerces _, toArray_coerces _, toArray_coerces _,
    toArray_coerces _⟩

/-- Witness for C8's amended coercion contract at a concrete mixed
array. -/
theorem normalizeStructuredData_fields_witness :
    (Pipeline.normalizeStructuredData mixedObservations).key_observations.isSome ∧
      (∃ l, (Pipeline.normalizeStructuredData mixedObservations).key_observations = some l ∧
        l.length = 2 ∧ l.get? 0 = some "a" ∧ l.get? 1 = some "") := by
  have h := (normalizeStructuredData_fields mixedObservations).2.2.1
  obtain ⟨l, hl, harr, _⟩ := h
  have harr2 := harr [Json.str "a", Json.num 1] rfl
  refine ⟨by rw [hl]; rfl, l, hl, harr2.1, harr2.2.1 0 "a" rfl, harr2.2.2 1 (Json.num 1) rfl rfl⟩

/-- C8 counterexample: a raw `key_observations` array holding a string
and a number is normalized to `["a", ""]` — the non-string element is
coerced to an empty string in place, not discarded (the claim would
demand `["a"]`). -/
theorem nonstring_elements_coerced_not_discarded :
    (Pipeline.normalizeStructuredData mixedObservations).key_observations = some ["a", ""] ∧
      (some (["a", ""] : List String)) ≠ some (["a"] : List String) := ⟨rfl, by decide⟩

/-- C9 (amended): appending an analysis through the store — when no
active patient is selected, or when the active id is the empty string
(the source guard is the falsy `!activePatientId`), the state is
untouched; with any other active id the patient list keeps its length,
every patient at a non-matching position is untouched, and every patient
at a matching position keeps id, name, age and existing analyses while
the timestamped result is prepended. -/
theorem addAnalysisToActivePatient_frame (s : Client.StoreState)
    (result : Client.AnalysisInput) (now : Nat) :
    ((s.activePatientId = none ∨ s.activePatientId = some "") →
        Client.addAnalysisToActivePatient s result now = s) ∧
      (∀ aid, s.activePatientId = some aid → aid ≠ "" →
        (Client.addAnalysisToActivePatient s result now).activePatientId = some aid ∧
          (Client.addAnalysisToActivePatient s result now).patients.length =
            s.patients.length ∧
          (∀ i p, s.patients.get? i = some p → p.id ≠ aid →
            (Client.addAnalysisToActivePatient s result now).patients.get? i = some p) ∧
          (∀ i p, s.patients.get? i = some p → p.id = aid →
            (Client.addAnalysisToActivePatient s result now).patients.get? i =
              some { p with analyses := Client.withTimestamp result now :: p.analyses })) := by
  constructor
  · rintro (h | h) <;> simp [Client.addAnalysisToActivePatient, h]
  · intro aid h hne0
    refine ⟨?_, ?_, ?_, ?_⟩
    · simp [Client.addAnalysisToActivePatient, h, hne0]
    · simp [Client.addAnalysisToActivePatient, h, hne0]
    · intro i p hp hne
      simp only [Client.addAnalysisToActivePatient, h]
      rw [if_neg hne0]
      simp only [List.get?_map, hp, Option.map_some']
      rw [if_neg hne]
    · intro i p hp heq
      simp only [Client.addAnalysisToActivePatient, h]
      rw [if_neg hne0]
      simp only [List.get?_map, hp, Option.map_some']
      rw [if_pos heq]

/-- Witness for C9 on a two-patient store with the first patient
active. -/
theorem addAnalysisToActivePatient_frame_witness :
    (Client.addAnalysisToActivePatient storeTwo inputC9 5).patients.length = 2 ∧
      (Client.addAnalysisToActivePatient storeTwo inputC9 5).patients.get? 0 =
        some { id := "p1", name := "Alice", age := 70,
               analyses := [Client.withTimestamp inputC9 5] } ∧
      (Client.addAnalysisToActivePatient storeTwo inputC9 5).patients.get? 1 =
        some { id := "p2", name := "Bob", age := 80, analyses := [] } ∧
      Client.addAnalysisToActivePatient
          { patients := storeTwo.patients, activePatientId := none } inputC9 5 =
        { patients := storeTwo.patients, activePatientId := none } := by
  have h := (addAnalysisToActivePatient_frame storeTwo inputC9 5).2 "p1" rfl (by decide)
  refine ⟨h.2.1.trans rfl, ?_, ?_, ?_⟩
  · exact h.2.2.2 0 { id := "p1", name := "Alice", age := 70, analyses := [] } rfl rfl
  · exact h.2.2.1 1 { id := "p2", name := "Bob", age := 80, analyses := [] } rfl (by decide)
  · exact (addAnalysisToActivePatient_frame
      { patients := storeTwo.patients, activePatientId := none } inputC9 5).1 (Or.inl rfl)

/-- C9 counterexample: with `activePatientId = some ""` and a patient
whose id is the empty string, an active patient is selected in the
claim's sense, yet the falsy guard makes the call a no-op — nothing is
prepended — where the claim demands exactly one prepended analysis. -/
theorem addAnalysisToActivePatient_cex :
    storeEmptyId.activePatientId = some "" ∧ some "" ≠ (none : Option String) ∧
      (∃ p ∈ storeEmptyId.patients, p.id = "") ∧
      Client.addAnalysisToActivePatient storeEmptyId inputC9 5 = storeEmptyId ∧
      (Client.addAnalysisToActivePatient storeEmptyId inputC9 5).patients.get? 0 =
        some { id := "", name := "Eve", age := 60, analyses := [] } ∧
      ([] : List Client.AnalysisResult) ≠ [Client.withTimestamp inputC9 5] := by
  refine ⟨rfl, by decide, ⟨{ id := "", name := "Eve", age := 60, analyses := [] },
    by decide, rfl⟩, rfl, rfl, by decide⟩
